import Mathlib

/-!
Verification of the document-splitting and field-extraction engine of the
TF_Discrepancy_Finder repository (server-side `documentSplitter` service).

The JavaScript source is shallowly embedded below:
* strings are `List Char` (`Str`); JS numbers used for confidences are `ℚ`
  (the arithmetic involved is exact decimal arithmetic, far from any
  floating-point rounding boundary);
* each JS regular expression is embedded as a term of the small regex
  language `RE` together with a backtracking matcher `reRuns` / `reSearch`
  that follows the JS semantics for the constructs actually used
  (leftmost match, greedy quantifiers, ordered alternation, one capture
  group);
* `String.prototype.toLowerCase` is modelled on the ASCII range, which
  covers every pattern and keyword in the source;
* the wall-clock timestamp `new Date().toISOString()` that the source
  stores in the `processingTime` field of the result is modelled as an explicit
  input `now`; the database write performed by `saveSplitDocuments` does
  not influence the returned value and is omitted.
-/

namespace TFDF

abbrev Str := List Char

/-! ### Exact rational arithmetic

JS `number` arithmetic on the confidence scores is modelled exactly over
`ℚ` (every comparison in the source is far from a floating-point rounding
boundary).  The operations are spelled out through `mkRat` so that closed
instances evaluate by kernel reduction; they are proved equal to the
ordinary `ℚ` operations in the first lemmas below. -/

def qFrac (a b : ℕ) : ℚ := mkRat a b

def qOfNat (n : ℕ) : ℚ := mkRat n 1

def qAdd (a b : ℚ) : ℚ := mkRat (a.num * b.den + b.num * a.den) (a.den * b.den)

def qMul (a b : ℚ) : ℚ := mkRat (a.num * b.num) (a.den * b.den)

def qMin (a b : ℚ) : ℚ := if a ≤ b then a else b

def qMax (a b : ℚ) : ℚ := if a ≤ b then b else a

/-- ASCII lowercasing, modelling `String.prototype.toLowerCase` on the
ASCII range (all patterns and keywords in the source are ASCII). -/
def lowerChar (c : Char) : Char :=
  if 'A' ≤ c ∧ c ≤ 'Z' then Char.ofNat (c.toNat + 32) else c

/-- The whitespace class `\s` of the regexes in the source, restricted to the
ASCII whitespace characters. -/
def isWsChar (c : Char) : Bool :=
  c = ' ' || c = '\t' || c = '\n' || c = '\r'

/-- `text.replace(/\s+/g, ' ')`: every maximal whitespace run becomes a
single space.  The Boolean argument records whether the previous character
belonged to a whitespace run whose replacement space was already emitted. -/
def collapseWsGo : Bool → Str → Str
  | _, [] => []
  | inRun, c :: s =>
    if isWsChar c then
      if inRun then collapseWsGo true s else ' ' :: collapseWsGo true s
    else c :: collapseWsGo false s

def collapseWs (l : Str) : Str := collapseWsGo false l

/-- `String.prototype.trim`. -/
def jsTrim (l : Str) : Str :=
  ((l.dropWhile isWsChar).reverse.dropWhile isWsChar).reverse

/-- `String.prototype.split(sep)` for a single-character separator.
`"".split(c)` is `[""]`, as in JS. -/
def splitOnChar (sep : Char) : Str → List Str
  | [] => [[]]
  | c :: s =>
    if c = sep then [] :: splitOnChar sep s
    else
      match splitOnChar sep s with
      | h :: t => (c :: h) :: t
      | [] => [[c]]

/-- `Array.prototype.join('\n')`. -/
def joinNl (ls : List Str) : Str := List.intercalate ['\n'] ls

/-- `String.prototype.includes`. -/
def listIncludes : Str → Str → Bool
  | [], sub => sub.isEmpty
  | c :: t, sub => List.isPrefixOf sub (c :: t) || listIncludes t sub

/-! ### A small regex language

Each regex of the source is embedded as a term of `RE`.  The matcher
returns the candidate continuations in the priority order used by the JS
backtracking engine: greedy quantifiers, ordered alternation, first
(leftmost) overall match wins.  At most one capture group occurs in each
of the regexes in the source, so a single optional capture is threaded through. -/

inductive RE where
  | lit (cs : Str)
  | cls (p : Char → Bool)
  | star (p : Char → Bool)
  | plus (p : Char → Bool)
  | opt (r : RE)
  | alt (a b : RE)
  | seq (a b : RE)
  | group (r : RE)

/-- Case-insensitively match the literal `cs` (stored lowercase) as a
prefix of `s`, returning the rest. -/
def charsMatchCI : Str → Str → Option Str
  | [], s => some s
  | _ :: _, [] => none
  | c :: cs, d :: s => if lowerChar d = c then charsMatchCI cs s else none

/-- Remainders after `p*`, greedy (longest consumed first). -/
def starRests (p : Char → Bool) : Str → List Str
  | [] => [[]]
  | c :: s => if p c then starRests p s ++ [c :: s] else [c :: s]

/-- Remainders after `p+`, greedy. -/
def plusRests (p : Char → Bool) : Str → List Str
  | [] => []
  | c :: s => if p c then starRests p s else []

/-- All ways to match `r` against a prefix of `s`, in backtracking
priority order; each result is the remaining suffix together with the
capture of the (single) group, if one was traversed. -/
def reRuns : RE → Str → List (Str × Option Str)
  | .lit cs, s =>
    match charsMatchCI cs s with
    | some r => [(r, none)]
    | none => []
  | .cls p, s =>
    match s with
    | c :: r => if p c then [(r, none)] else []
    | [] => []
  | .star p, s => (starRests p s).map (fun r => (r, none))
  | .plus p, s => (plusRests p s).map (fun r => (r, none))
  | .opt r, s => reRuns r s ++ [(s, none)]
  | .alt a b, s => reRuns a s ++ reRuns b s
  | .seq a b, s =>
    (reRuns a s).flatMap
      (fun pr => (reRuns b pr.1).map (fun qr => (qr.1, pr.2.orElse (fun _ => qr.2))))
  | .group r, s =>
    (reRuns r s).map (fun pr => (pr.1, some (s.take (s.length - pr.1.length))))

/-- `regex.exec` scanning: try each start position from the left; at the
first position where a match exists, return the capture of the
highest-priority match. -/
def reSearch (r : RE) : Str → Option (Option Str)
  | [] =>
    match (reRuns r []).head? with
    | some pr => some pr.2
    | none => none
  | c :: t =>
    match (reRuns r (c :: t)).head? with
    | some pr => some pr.2
    | none => reSearch r t

/-- `pattern.test(s)`. -/
def reTest (r : RE) (s : Str) : Bool := (reSearch r s).isSome

/-- `s.match(pattern)?.[1]`: capture group 1 of the first match. -/
def reCapture (r : RE) (s : Str) : Option Str :=
  match reSearch r s with
  | some (some c) => some c
  | _ => none

/-- `/w1\s+w2\s+.../i`: the shape of every start/end pattern in the
signature registry. -/
def wpat : List String → RE
  | [] => .lit []
  | [w] => .lit w.data
  | w :: ws => .seq (.lit w.data) (.seq (.plus isWsChar) (wpat ws))

/-! ### The document signature registry (`DOCUMENT_SIGNATURES`) -/

structure Signature where
  startPatterns : List RE
  endPatterns : List RE
  keywords : List String

/-- The apostrophe character (used inside two end patterns). -/
def apos : Char := Char.ofNat 39

def lcSig : Signature :=
  { startPatterns := [wpat ["irrevocable", "documentary", "credit"],
      wpat ["letter", "of", "credit"], wpat ["documentary", "credit"],
      wpat ["lc", "number"], wpat ["credit", "number"]],
    endPatterns := [wpat ["end", "of", "credit"], wpat ["credit", "expires"],
      wpat ["ucp", "600"], wpat ["authorized", "signature"]],
    keywords := ["beneficiary", "applicant", "expiry", "amount", "documents required"] }

def invoiceSig : Signature :=
  { startPatterns := [wpat ["commercial", "invoice"], wpat ["invoice", "number"],
      wpat ["invoice", "date"], wpat ["sold", "to"], wpat ["bill", "to"]],
    endPatterns := [wpat ["total", "amount"], wpat ["grand", "total"],
      wpat ["payment", "terms"], wpat ["thank", "you"]],
    keywords := ["invoice", "quantity", "unit price", "total", "description"] }

def blSig : Signature :=
  { startPatterns := [wpat ["bill", "of", "lading"], wpat ["b/l", "number"],
      wpat ["shipped", "on", "board"], wpat ["vessel"], wpat ["port", "of", "loading"]],
    endPatterns := [wpat ["freight", "prepaid"], wpat ["freight", "collect"],
      wpat ["shipped", "on", "board"],
      wpat [String.mk ['m', 'a', 's', 't', 'e', 'r', apos, 's'], "signature"]],
    keywords := ["consignee", "shipper", "vessel", "port", "cargo"] }

def packingSig : Signature :=
  { startPatterns := [wpat ["packing", "list"], wpat ["package", "list"],
      wpat ["gross", "weight"], wpat ["net", "weight"], wpat ["packages"]],
    endPatterns := [wpat ["total", "packages"], wpat ["total", "weight"],
      wpat ["measurement"], wpat ["dimensions"]],
    keywords := ["packages", "weight", "dimensions", "cartons", "pieces"] }

def originSig : Signature :=
  { startPatterns := [wpat ["certificate", "of", "origin"], wpat ["country", "of", "origin"],
      wpat ["chamber", "of", "commerce"], wpat ["origin", "certificate"]],
    endPatterns := [wpat ["chamber", "seal"], wpat ["authorized", "signature"],
      wpat ["certificate", "number"], wpat ["date", "of", "issue"]],
    keywords := ["origin", "country", "goods", "certificate", "chamber"] }

def insuranceSig : Signature :=
  { startPatterns := [wpat ["insurance", "certificate"], wpat ["policy", "number"],
      wpat ["insured", "amount"], wpat ["coverage"], wpat ["marine", "insurance"]],
    endPatterns := [wpat ["policy", "expires"],
      wpat [String.mk ['i', 'n', 's', 'u', 'r', 'e', 'r', apos, 's'], "signature"],
      wpat ["claims", "payable"], wpat ["coverage", "ends"]],
    keywords := ["insurance", "policy", "coverage", "premium", "claims"] }

/-- The `DOCUMENT_SIGNATURES` object of the source.  JS object literals
iterate in declaration order, so a list of name/signature pairs is a
faithful model of `Object.entries(DOCUMENT_SIGNATURES)`. -/
def DOCUMENT_SIGNATURES : List (String × Signature) :=
  [("Letter of Credit", lcSig),
   ("Commercial Invoice", invoiceSig),
   ("Bill of Lading", blSig),
   ("Packing List", packingSig),
   ("Certificate of Origin", originSig),
   ("Insurance Certificate", insuranceSig)]

/-- `DOCUMENT_SIGNATURES[documentType]` property access. -/
def lookupSignature (t : String) : Option Signature :=
  (DOCUMENT_SIGNATURES.find? (fun e => e.1 == t)).map (fun e => e.2)

/-! ### Scoring helpers -/

/-- `countKeywordMatches(text, documentType)`: the fraction of the
keywords of the type occurring (case-insensitively) in `text`; `0` for an
unregistered type. -/
def countKeywordMatches (text : Str) (documentType : String) : ℚ :=
  match lookupSignature documentType with
  | none => 0
  | some sig =>
    let lowerText := text.map lowerChar
    qFrac (sig.keywords.filter
        (fun kw => listIncludes lowerText (kw.data.map lowerChar))).length
      sig.keywords.length

/-- `lines.some(line => line.toLowerCase().includes(sec))`. -/
def structurePresence (lines : List Str) (sec : String) : Bool :=
  lines.any (fun line => listIncludes (line.map lowerChar) sec.data)

def analyzeLCStructure (lines : List Str) : ℚ :=
  ["lc number", "beneficiary", "applicant", "amount", "expiry"].foldl
    (fun score sec => if structurePresence lines sec then qAdd score (mkRat 2 10) else score) 0

def analyzeInvoiceStructure (lines : List Str) : ℚ :=
  ["invoice number", "date", "total", "description"].foldl
    (fun score sec => if structurePresence lines sec then qAdd score (mkRat 25 100) else score) 0

def analyzeBLStructure (lines : List Str) : ℚ :=
  ["vessel", "port", "consignee", "shipper"].foldl
    (fun score sec => if structurePresence lines sec then qAdd score (mkRat 25 100) else score) 0

def analyzeDocumentStructure (text : Str) (documentType : String) : ℚ :=
  let lines := (splitOnChar '\n' text).filter (fun line => 0 < (jsTrim line).length)
  match documentType with
  | "Letter of Credit" => analyzeLCStructure lines
  | "Commercial Invoice" => analyzeInvoiceStructure lines
  | "Bill of Lading" => analyzeBLStructure lines
  | _ => mkRat 5 10

/-- `calculateDocumentConfidence(line, documentType)`:
`min(0.9, 0.5 + matchingStartPatterns * 0.2)`. -/
def calculateDocumentConfidence (line : Str) (documentType : String) : ℚ :=
  match lookupSignature documentType with
  | none => mkRat 5 10
  | some sig =>
    qMin (mkRat 9 10)
      (qAdd (mkRat 5 10)
        (qMul (qOfNat (sig.startPatterns.countP (fun p => reTest p line))) (mkRat 2 10)))

/-- The `totalScore` of one loop iteration of `identifyDocumentType`:
`keywordScore * 0.6 + patternScore * 0.4`. -/
def sigTotalScore (text : Str) (e : String × Signature) : ℚ :=
  qAdd (qMul (countKeywordMatches text e.1) (mkRat 6 10))
    (qMul (qFrac (e.2.startPatterns.countP (fun p => reTest p text))
        e.2.startPatterns.length)
      (mkRat 4 10))

/-- The loop body of `identifyDocumentType`: keep the running
`(bestMatch, highestScore)` pair, updating on a strictly greater score. -/
def idStep (text : Str) (best : String × ℚ) (e : String × Signature) : String × ℚ :=
  if sigTotalScore text e > best.2 then (e.1, sigTotalScore text e) else best

/-- `identifyDocumentType(text)`: fold over the registry keeping the
first strict maximum of `keywordScore*0.6 + patternScore*0.4`; fall back
to `"Unknown Document"` when the best score is at most `0.3`. -/
def identifyDocumentType (text : Str) : String :=
  let r := DOCUMENT_SIGNATURES.foldl (idStep text) ("Unknown Document", 0)
  if r.2 > mkRat 3 10 then r.1 else "Unknown Document"

/-! ### Boundary detection (`findDocumentSections`) -/

structure SectionRec where
  type : String
  startIndex : ℕ
  endIndex : ℤ
  content : Str
  confidence : ℚ
deriving DecidableEq

/-- The first registry entry one of whose start patterns matches the
line (the inner `for ... break` of the source). -/
def findStartMatch (line : Str) : Option (String × Signature) :=
  DOCUMENT_SIGNATURES.find? (fun e => e.2.startPatterns.any (fun p => reTest p line))

/-- One iteration of the scanning loop of `findDocumentSections`:
first the start-pattern check (closing any open section and opening a new
one), then the end-pattern check against the — possibly just opened —
open section. -/
def processLine (lines : List Str) (st : List SectionRec × Option SectionRec)
    (i : ℕ) (line : Str) : List SectionRec × Option SectionRec :=
  let step1 : List SectionRec × Option SectionRec :=
    match findStartMatch line with
    | some e =>
      let closed :=
        match st.2 with
        | some c =>
          st.1 ++ [{ c with
            endIndex := (i : ℤ) - 1,
            content := joinNl ((lines.drop c.startIndex).take (i - c.startIndex)) }]
        | none => st.1
      (closed,
       some { type := e.1
              startIndex := i
              endIndex := (lines.length : ℤ) - 1
              content := []
              confidence := calculateDocumentConfidence line e.1 })
    | none => st
  match step1.2 with
  | some c =>
    match lookupSignature c.type with
    | some sig =>
      if sig.endPatterns.any (fun p => reTest p line) then
        (step1.1 ++ [{ c with
          endIndex := (i : ℤ),
          content := joinNl ((lines.drop c.startIndex).take (i + 1 - c.startIndex)) }],
         none)
      else (step1.1, some c)
    | none => (step1.1, some c)
  | none => step1

/-- The scanning loop of `findDocumentSections` plus the final close of a
still-open section (before the `refineSections` post-processing). -/
def findRawSections (lines : List Str) : List SectionRec :=
  let st := lines.enum.foldl (fun st p => processLine lines st p.1 p.2) ([], none)
  match st.2 with
  | some c => st.1 ++ [{ c with content := joinNl (lines.drop c.startIndex) }]
  | none => st.1

/-- `refineSections(sections, fullText)`: recompute each confidence as
`min(0.95, keywordMatches*0.4 + structureScore*0.6)`, halve it for
contents shorter than 100 characters, and keep only sections scoring
strictly above `0.3`.  (`fullText` is unused by the source as well.) -/
def refineSections (sections : List SectionRec) (fullText : Str) : List SectionRec :=
  (sections.map (fun s =>
    let keywordMatches := countKeywordMatches s.content s.type
    let structureScore := analyzeDocumentStructure s.content s.type
    let conf := qMin (mkRat 95 100)
      (qAdd (qMul keywordMatches (mkRat 4 10)) (qMul structureScore (mkRat 6 10)))
    { s with confidence := if s.content.length < 100 then qMul conf (mkRat 5 10) else conf })).filter
    (fun s => s.confidence > mkRat 3 10)

def findDocumentSections (lines : List Str) (fullText : Str) : List SectionRec :=
  refineSections (findRawSections lines) fullText

/-! ### Field extraction -/

structure ExtractedField where
  fieldName : String
  fieldValue : String
  confidence : ℚ
deriving DecidableEq

/-- Push one field from an optional regex capture, trimming the value
when the source applies `.trim()`. -/
def fieldsOfOpt (name : String) (conf : ℚ) (trimmed : Bool) (m : Option Str) :
    List ExtractedField :=
  match m with
  | some v =>
    [{ fieldName := name
       fieldValue := String.mk (if trimmed then jsTrim v else v)
       confidence := conf }]
  | none => []

def wsStar : RE := .star isWsChar
def colonOpt : RE := .opt (.cls (fun c => c = ':'))
def isAlphaChar (c : Char) : Bool := 'a' ≤ lowerChar c && lowerChar c ≤ 'z'
def isDigitChar (c : Char) : Bool := '0' ≤ c && c ≤ '9'
/-- `[A-Z0-9\-]` under the `i` flag. -/
def isIdChar (c : Char) : Bool := isAlphaChar c || isDigitChar c || c = '-'

/-- `(?:number|no\.?|#)?` -/
def numberNoHash : RE :=
  .opt (.alt (.lit "number".data)
    (.alt (.seq (.lit "no".data) (.opt (.cls (fun c => c = '.')))) (.lit "#".data)))

/-- Right-nested sequencing of a regex list. -/
def reSeq : List RE → RE
  | [] => .lit []
  | [r] => r
  | r :: rs => .seq r (reSeq rs)

/-- `([A-Z0-9\-]+)` -/
def idToken : RE := .group (.plus isIdChar)

/-- `([A-Z]{3}\s*[\d,]+\.?\d*)` -/
def amountToken : RE :=
  .group (reSeq [.cls isAlphaChar, .cls isAlphaChar, .cls isAlphaChar, wsStar,
    .plus (fun c => isDigitChar c || c = ','), .opt (.cls (fun c => c = '.')),
    .star isDigitChar])

/-- `([^\n]+)` -/
def lineToken : RE := .group (.plus (fun c => !(c = '\n')))

/-- `/(?:lc|letter of credit|credit)\s*(?:number|no\.?|#)?\s*:?\s*([A-Z0-9\-]+)/i` -/
def lcNumberRE : RE :=
  reSeq [.alt (.lit "lc".data) (.alt (.lit "letter of credit".data) (.lit "credit".data)),
    wsStar, numberNoHash, wsStar, colonOpt, wsStar, idToken]

/-- `/(?:amount|value)\s*:?\s*([A-Z]{3}\s*[\d,]+\.?\d*)/i` -/
def amountRE : RE :=
  reSeq [.alt (.lit "amount".data) (.lit "value".data), wsStar, colonOpt, wsStar, amountToken]

/-- `/beneficiary\s*:?\s*([^\n]+)/i` -/
def beneficiaryRE : RE := reSeq [.lit "beneficiary".data, wsStar, colonOpt, wsStar, lineToken]

/-- `/applicant\s*:?\s*([^\n]+)/i` -/
def applicantRE : RE := reSeq [.lit "applicant".data, wsStar, colonOpt, wsStar, lineToken]

/-- `/invoice\s*(?:number|no\.?|#)?\s*:?\s*([A-Z0-9\-]+)/i` -/
def invoiceNumberRE : RE :=
  reSeq [.lit "invoice".data, wsStar, numberNoHash, wsStar, colonOpt, wsStar, idToken]

/-- `/(?:total|grand total)\s*:?\s*([A-Z]{3}\s*[\d,]+\.?\d*)/i` -/
def totalAmountRE : RE :=
  reSeq [.alt (.lit "total".data) (.lit "grand total".data), wsStar, colonOpt, wsStar,
    amountToken]

/-- `/(?:b\/l|bill of lading)\s*(?:number|no\.?|#)?\s*:?\s*([A-Z0-9\-]+)/i` -/
def blNumberRE : RE :=
  reSeq [.alt (.lit "b/l".data) (.lit "bill of lading".data), wsStar, numberNoHash,
    wsStar, colonOpt, wsStar, idToken]

/-- `/vessel\s*:?\s*([^\n]+)/i` -/
def vesselRE : RE := reSeq [.lit "vessel".data, wsStar, colonOpt, wsStar, lineToken]

/-- `/(?:total\s+)?packages?\s*:?\s*(\d+)/i` -/
def packagesRE : RE :=
  reSeq [.opt (.seq (.lit "total".data) (.plus isWsChar)), .lit "package".data,
    .opt (.cls (fun c => lowerChar c = 's')), wsStar, colonOpt, wsStar,
    .group (.plus isDigitChar)]

/-- `/country\s+of\s+origin\s*:?\s*([^\n]+)/i` -/
def countryRE : RE :=
  reSeq [.lit "country".data, .plus isWsChar, .lit "of".data, .plus isWsChar,
    .lit "origin".data, wsStar, colonOpt, wsStar, lineToken]

/-- `/policy\s*(?:number|no\.?|#)?\s*:?\s*([A-Z0-9\-]+)/i` -/
def policyRE : RE :=
  reSeq [.lit "policy".data, wsStar, numberNoHash, wsStar, colonOpt, wsStar, idToken]

def extractLCFields (content : Str) (_lines : List Str) : List ExtractedField :=
  fieldsOfOpt "LC Number" (mkRat 9 10) false (reCapture lcNumberRE content) ++
  fieldsOfOpt "Amount" (mkRat 85 100) false (reCapture amountRE content) ++
  fieldsOfOpt "Beneficiary" (mkRat 8 10) true (reCapture beneficiaryRE content) ++
  fieldsOfOpt "Applicant" (mkRat 8 10) true (reCapture applicantRE content)

def extractInvoiceFields (content : Str) (_lines : List Str) : List ExtractedField :=
  fieldsOfOpt "Invoice Number" (mkRat 9 10) false (reCapture invoiceNumberRE content) ++
  fieldsOfOpt "Total Amount" (mkRat 85 100) false (reCapture totalAmountRE content)

def extractBLFields (content : Str) (_lines : List Str) : List ExtractedField :=
  fieldsOfOpt "B/L Number" (mkRat 9 10) false (reCapture blNumberRE content) ++
  fieldsOfOpt "Vessel" (mkRat 8 10) true (reCapture vesselRE content)

def extractPackingListFields (content : Str) (_lines : List Str) : List ExtractedField :=
  fieldsOfOpt "Total Packages" (mkRat 85 100) false (reCapture packagesRE content)

def extractOriginFields (content : Str) (_lines : List Str) : List ExtractedField :=
  fieldsOfOpt "Country of Origin" (mkRat 9 10) true (reCapture countryRE content)

def extractInsuranceFields (content : Str) (_lines : List Str) : List ExtractedField :=
  fieldsOfOpt "Policy Number" (mkRat 9 10) false (reCapture policyRE content)

/-- The anchored per-line regex `/^([^:]+):\s*(.+)$/` of the generic
extractor.  `[^:]+` necessarily stops at the first colon; after it,
`\s*(.+)$` matches iff some non-empty `\n`-free suffix remains once a
(greedy, backtrackable) run of leading whitespace is skipped. -/
def genericKVMatch (line : Str) : Option (Str × Str) :=
  let k := line.takeWhile (fun c => !(c = ':'))
  match line.dropWhile (fun c => !(c = ':')) with
  | ':' :: after =>
    if k.isEmpty then none
    else
      let m := after.dropWhile isWsChar
      if m.isEmpty then
        match after.getLast? with
        | some c => if c = '\n' then none else some (k, [c])
        | none => none
      else if m.contains '\n' then none
      else some (k, m)
  | _ => none

def extractGenericFields (_content : Str) (lines : List Str) : List ExtractedField :=
  (lines.filterMap (fun line =>
    match genericKVMatch line with
    | some kv =>
      if kv.1.length < 50 && kv.2.length < 200 then
        some { fieldName := String.mk (jsTrim kv.1)
               fieldValue := String.mk (jsTrim kv.2)
               confidence := mkRat 6 10 }
      else none
    | none => none)).take 10

def extractFieldsFromSection (content : Str) (documentType : String) :
    List ExtractedField :=
  let lines := splitOnChar '\n' content
  match documentType with
  | "Letter of Credit" => extractLCFields content lines
  | "Commercial Invoice" => extractInvoiceFields content lines
  | "Bill of Lading" => extractBLFields content lines
  | "Packing List" => extractPackingListFields content lines
  | "Certificate of Origin" => extractOriginFields content lines
  | "Insurance Certificate" => extractInsuranceFields content lines
  | _ => extractGenericFields content lines

/-! ### The top-level pipeline (`splitDocumentByFormType`) -/

structure SplitDoc where
  id : String
  originalDocumentId : String
  splitIndex : ℕ
  documentType : String
  content : Str
  extractedText : Str
  confidence : ℚ
  pageStart : ℤ
  pageEnd : ℤ
  extractedFields : List ExtractedField
  lineStart : ℕ
  lineEnd : ℤ
  wordCount : ℕ
  characterCount : ℕ
deriving DecidableEq

structure SplitResult where
  originalDocumentId : String
  splitCount : ℕ
  splitDocuments : List SplitDoc
  processingTime : String
deriving DecidableEq

/-- `extractedText.replace(/\s+/g, ' ').trim()`. -/
def normOf (extractedText : String) : Str := jsTrim (collapseWs extractedText.data)

/-- `normalizedText.split('\n').map(l => l.trim()).filter(l => l.length > 0)`. -/
def linesOf (normalizedText : Str) : List Str :=
  ((splitOnChar '\n' normalizedText).map jsTrim).filter (fun l => 0 < l.length)

/-- The section list of the pipeline: the refined sections, or — when
they are empty — the single whole-text fallback section with confidence
`0.7` typed by `identifyDocumentType`. -/
def sectionsOf (normalizedText : Str) : List SectionRec :=
  let lines := linesOf normalizedText
  let documentSections := findDocumentSections lines normalizedText
  if documentSections.length = 0 then
    [{ type := identifyDocumentType normalizedText, startIndex := 0,
       endIndex := (lines.length : ℤ) - 1, content := normalizedText,
       confidence := mkRat 7 10 }]
  else documentSections

/-- Build one `splitDoc` record from a section (loop body of the source). -/
def buildSplitDoc (documentId : String) (i : ℕ) (s : SectionRec) : SplitDoc :=
  { id := documentId ++ "_split_" ++ toString (i + 1),
    originalDocumentId := documentId,
    splitIndex := i + 1,
    documentType := s.type,
    content := s.content,
    extractedText := s.content,
    confidence := s.confidence,
    pageStart := ((s.startIndex : ℤ)).fdiv 50 + 1,
    pageEnd := s.endIndex.fdiv 50 + 1,
    extractedFields := extractFieldsFromSection s.content s.type,
    lineStart := s.startIndex,
    lineEnd := s.endIndex,
    wordCount := (splitOnChar ' ' s.content).length,
    characterCount := s.content.length }

/-- `splitDocumentByFormType(documentId, extractedText)`.  The wall-clock
timestamp the source stores in `processingTime` is the explicit argument
`now`; the database side effect does not affect the returned value. -/
def splitDocumentByFormType (documentId extractedText now : String) : SplitResult :=
  let normalizedText := normOf extractedText
  let splitDocuments := (sectionsOf normalizedText).enum.map
    (fun p => buildSplitDoc documentId p.1 p.2)
  { originalDocumentId := documentId,
    splitCount := splitDocuments.length,
    splitDocuments := splitDocuments,
    processingTime := now }

/-! ### Specification-side definitions

These restate, word for word, formulas of the natural-language
specification; the theorems below compare them with the embedded code. -/

/-- Spec §4.3: final confidence is
`min(0.95, keyword-density × 0.4 + structural × 0.6)`, multiplied by
`0.5` when the content is shorter than 100 characters. -/
def specRefinedConfidence (kd structural : ℚ) (len : ℕ) : ℚ :=
  let conf := qMin (mkRat 95 100) (qAdd (qMul kd (mkRat 4 10)) (qMul structural (mkRat 6 10)))
  if len < 100 then qMul conf (mkRat 1 2) else conf

/-- Spec §4.3 as a whole-section rescoring: replace the confidence by
`specRefinedConfidence` of the keyword density, structural
score and content length. -/
def specRescore (s : SectionRec) : SectionRec :=
  { s with
    confidence :=
      specRefinedConfidence (countKeywordMatches s.content s.type)
        (analyzeDocumentStructure s.content s.type) s.content.length }

/-- Spec §4.2a: `score = 0.6 × keyword ratio + 0.4 × pattern ratio` for
one registered signature. -/
def specSigScore (text : Str) (e : String × Signature) : ℚ :=
  qAdd
    (qMul (mkRat 6 10)
      (qFrac (e.2.keywords.filter
          (fun kw => listIncludes (text.map lowerChar) (kw.data.map lowerChar))).length
        e.2.keywords.length))
    (qMul (mkRat 4 10)
      (qFrac (e.2.startPatterns.countP (fun p => reTest p text))
        e.2.startPatterns.length))

/-- The highest §4.2a score over the registry (at least `0`). -/
def bestSigScore (text : Str) : ℚ :=
  DOCUMENT_SIGNATURES.foldl (fun h e => qMax h (specSigScore text e)) 0

/-- The split document the pipeline produces for the empty input under
`documentId = "doc1"` (used as a concrete sample below). -/
def sampleSplitDoc : SplitDoc :=
  { id := "doc1_split_1", originalDocumentId := "doc1", splitIndex := 1,
    documentType := "Unknown Document", content := [], extractedText := [],
    confidence := mkRat 7 10, pageStart := 1, pageEnd := 0, extractedFields := [],
    lineStart := 0, lineEnd := -1, wordCount := 1, characterCount := 0 }

/-! ## Lemmas

First, the `mkRat`-based arithmetic agrees with the field operations of
`ℚ`. -/

theorem qFrac_eq (a b : ℕ) : qFrac a b = (a : ℚ) / (b : ℚ) := by
  unfold qFrac; rw [Rat.mkRat_eq_div]; push_cast; ring

theorem qOfNat_eq (n : ℕ) : qOfNat n = (n : ℚ) := by
  unfold qOfNat; rw [Rat.mkRat_eq_div]; push_cast; simp

theorem qMul_eq (a b : ℚ) : qMul a b = a * b := by
  unfold qMul; rw [Rat.mkRat_eq_div]; push_cast
  conv_rhs => rw [← Rat.num_div_den a, ← Rat.num_div_den b]
  rw [div_mul_div_comm]

theorem qAdd_eq (a b : ℚ) : qAdd a b = a + b := by
  have ha : (a.den : ℚ) ≠ 0 := by exact_mod_cast a.den_nz
  have hb : (b.den : ℚ) ≠ 0 := by exact_mod_cast b.den_nz
  unfold qAdd; rw [Rat.mkRat_eq_div]; push_cast
  conv_rhs => rw [← Rat.num_div_den a, ← Rat.num_div_den b]
  rw [div_add_div _ _ ha hb]; ring

theorem qMin_eq (a b : ℚ) : qMin a b = min a b := (min_def a b).symm

theorem qMax_eq (a b : ℚ) : qMax a b = max a b := (max_def a b).symm

/-! Normalization: `replace(/\s+/g, ' ')` leaves no newline in the text,
so the later `split('\n')` never splits; whitespace-only inputs
normalize to the empty string. -/

theorem mem_collapseWsGo {c : Char} :
    ∀ (b : Bool) (l : Str), c ∈ collapseWsGo b l → c = ' ' ∨ (c ∈ l ∧ isWsChar c = false) := by
  intro b l
  induction l generalizing b with
  | nil => simp [collapseWsGo]
  | cons d t ih =>
    intro h
    by_cases hd : isWsChar d
    · cases b with
      | true =>
        simp only [collapseWsGo, hd, if_true] at h
        rcases ih true h with h | ⟨h1, h2⟩
        · exact Or.inl h
        · exact Or.inr ⟨List.mem_cons_of_mem _ h1, h2⟩
      | false =>
        simp [collapseWsGo, hd] at h
        rcases h with h | h
        · exact Or.inl h
        · rcases ih true h with h | ⟨h1, h2⟩
          · exact Or.inl h
          · exact Or.inr ⟨List.mem_cons_of_mem _ h1, h2⟩
    · simp [collapseWsGo, hd] at h
      rcases h with h | h
      · subst h; exact Or.inr ⟨List.mem_cons_self _ _, by simpa using hd⟩
      · rcases ih false h with h | ⟨h1, h2⟩
        · exact Or.inl h
        · exact Or.inr ⟨List.mem_cons_of_mem _ h1, h2⟩

theorem newline_not_mem_collapseWs (l : Str) : ¬ '\n' ∈ collapseWs l := by
  intro h
  rcases mem_collapseWsGo false l h with h | ⟨_, h2⟩
  · exact absurd h (by decide)
  · exact absurd h2 (by decide)

theorem mem_jsTrim {c : Char} {l : Str} (h : c ∈ jsTrim l) : c ∈ l := by
  unfold jsTrim at h
  rw [List.mem_reverse] at h
  have h1 := (List.dropWhile_sublist (l := (l.dropWhile isWsChar).reverse)
    (p := isWsChar)).subset h
  rw [List.mem_reverse] at h1
  exact (List.dropWhile_sublist (l := l) (p := isWsChar)).subset h1

theorem newline_not_mem_normOf (t : String) : ¬ '\n' ∈ normOf t := by
  intro h
  exact newline_not_mem_collapseWs t.data (mem_jsTrim h)

theorem collapseWsGo_true_of_allWs {l : Str}
    (h : ∀ c ∈ l, isWsChar c = true) : collapseWsGo true l = [] := by
  induction l with
  | nil => rfl
  | cons c t ih =>
    have hc : isWsChar c = true := h c (List.mem_cons_self _ _)
    simp only [collapseWsGo, hc, if_true]
    exact ih (fun d hd => h d (List.mem_cons_of_mem _ hd))

theorem normOf_of_allWs (s : String)
    (h : ∀ c ∈ s.data, isWsChar c = true) : normOf s = [] := by
  unfold normOf collapseWs
  cases hs : s.data with
  | nil => rfl
  | cons c t =>
    have hc : isWsChar c = true := h c (hs ▸ List.mem_cons_self _ _)
    have ht : collapseWsGo true t = [] :=
      collapseWsGo_true_of_allWs (fun d hd => h d (hs ▸ List.mem_cons_of_mem _ hd))
    simp only [collapseWsGo, hc, if_true, if_neg Bool.false_ne_true, ht]
    rfl

theorem splitOnChar_of_all_ne {sep : Char} {l : Str}
    (h : ∀ c ∈ l, ¬ c = sep) : splitOnChar sep l = [l] := by
  induction l with
  | nil => rfl
  | cons c t ih =>
    have hc : ¬ c = sep := h c (List.mem_cons_self _ _)
    simp only [splitOnChar, if_neg hc, ih (fun d hd => h d (List.mem_cons_of_mem _ hd))]

theorem linesOf_of_no_newline {n : Str} (h : ¬ '\n' ∈ n) :
    linesOf n = [] ∨ linesOf n = [jsTrim n] := by
  unfold linesOf
  rw [splitOnChar_of_all_ne (fun c hc hceq => h (by rw [← hceq]; exact hc))]
  simp only [List.map_cons, List.map_nil, List.filter]
  by_cases hl : 0 < (jsTrim n).length
  · right; simp [hl]
  · left; simp [hl]

theorem linesOf_normOf_length_le (t : String) : (linesOf (normOf t)).length ≤ 1 := by
  rcases linesOf_of_no_newline (newline_not_mem_normOf t) with h | h <;> simp [h]

/-! Boundary detection over at most one line yields at most one raw
section, hence the refined list also has at most one element and the
pipeline count is always exactly one. -/

theorem findRawSections_nil : findRawSections [] = [] := rfl

theorem findRawSections_singleton_le (l : Str) : (findRawSections [l]).length ≤ 1 := by
  unfold findRawSections
  simp only [List.enum, List.enumFrom, List.foldl]
  rcases hf : findStartMatch l with _ | e
  · simp [processLine, hf]
  · simp only [processLine, hf]
    rcases hs : lookupSignature e.1 with _ | sig
    · simp [hs]
    · by_cases he : sig.endPatterns.any (fun p => reTest p l) = true
      · simp [hs, he]
      · simp [hs, he]

theorem findRawSections_length_le_one {lines : List Str} (h : lines.length ≤ 1) :
    (findRawSections lines).length ≤ 1 := by
  match lines with
  | [] => simp [findRawSections_nil]
  | [l] => exact findRawSections_singleton_le l
  | _ :: _ :: _ => simp at h

theorem refineSections_length_le (sections : List SectionRec) (fullText : Str) :
    (refineSections sections fullText).length ≤ sections.length := by
  unfold refineSections
  exact le_trans (List.length_filter_le _ _) (le_of_eq (List.length_map _ _))

theorem sectionsOf_length_one {n : Str}
    (h : (findDocumentSections (linesOf n) n).length ≤ 1) : (sectionsOf n).length = 1 := by
  unfold sectionsOf
  by_cases h0 : (findDocumentSections (linesOf n) n).length = 0
  · simp [h0]
  · simp only [h0, if_false]
    omega

theorem splitDocuments_length (docId text now : String) :
    (splitDocumentByFormType docId text now).splitDocuments.length =
      (sectionsOf (normOf text)).length := by
  simp [splitDocumentByFormType]

/-- Shared helper: when the refined section list is empty, the pipeline
emits exactly the single whole-text fallback segment. -/
theorem fallback_output (docId text now : String)
    (h : findDocumentSections (linesOf (normOf text)) (normOf text) = []) :
    (splitDocumentByFormType docId text now).splitDocuments.map
      (fun d => (d.documentType, d.content, d.confidence)) =
      [(identifyDocumentType (normOf text), normOf text, mkRat 7 10)] := by
  simp only [splitDocumentByFormType, sectionsOf]
  rw [h]
  simp [buildSplitDoc, List.enum, List.enumFrom]

/-! The classification fold of `identifyDocumentType`: its running score
is the maximum of the scores seen so far, and its running name is either
the initial one or the name of an entry achieving that maximum. -/

theorem idFold_snd (text : Str) :
    ∀ (L : List (String × Signature)) (p : String × ℚ),
      (L.foldl (idStep text) p).2 =
        L.foldl (fun h e => qMax h (sigTotalScore text e)) p.2 := by
  intro L
  induction L with
  | nil => intro p; rfl
  | cons e L ih =>
    intro p
    simp only [List.foldl]
    rw [ih]
    congr 1
    by_cases h : sigTotalScore text e > p.2
    · simp [idStep, qMax, h, le_of_lt h]
    · push_neg at h
      by_cases h2 : p.2 ≤ sigTotalScore text e
      · have he : sigTotalScore text e = p.2 := le_antisymm h h2
        simp [idStep, qMax, he]
      · simp [idStep, qMax, h2, not_lt.2 h]

theorem idFold_fst (text : Str) :
    ∀ (L : List (String × Signature)) (p : String × ℚ),
      L.foldl (idStep text) p = p ∨
        ∃ e ∈ L, (L.foldl (idStep text) p).1 = e.1 ∧
          (L.foldl (idStep text) p).2 = sigTotalScore text e := by
  intro L
  induction L with
  | nil => intro p; exact Or.inl rfl
  | cons e L ih =>
    intro p
    simp only [List.foldl]
    rcases ih (idStep text p e) with h | ⟨e', he', h1, h2⟩
    · by_cases hgt : sigTotalScore text e > p.2
      · right
        refine ⟨e, List.mem_cons_self _ _, ?_, ?_⟩
        · rw [h]; simp [idStep, hgt]
        · rw [h]; simp [idStep, hgt]
      · left
        rw [h]; simp [idStep, hgt]
    · right
      exact ⟨e', List.mem_cons_of_mem _ he', h1, h2⟩

theorem lookup_of_mem : ∀ e ∈ DOCUMENT_SIGNATURES, lookupSignature e.1 = some e.2 := by
  intro e he
  simp only [DOCUMENT_SIGNATURES, List.mem_cons, List.not_mem_nil, or_false] at he
  rcases he with h | h | h | h | h | h <;> subst h <;> rfl

theorem countKeywordMatches_of_lookup {name : String} {sig : Signature}
    (h : lookupSignature name = some sig) (text : Str) :
    countKeywordMatches text name =
      qFrac (sig.keywords.filter
        (fun kw => listIncludes (text.map lowerChar) (kw.data.map lowerChar))).length
        sig.keywords.length := by
  unfold countKeywordMatches
  rw [h]

theorem sigTotal_eq_spec (text : Str) :
    ∀ e ∈ DOCUMENT_SIGNATURES, sigTotalScore text e = specSigScore text e := by
  intro e he
  unfold sigTotalScore specSigScore
  rw [countKeywordMatches_of_lookup (lookup_of_mem e he)]
  rw [qAdd_eq, qAdd_eq, qMul_eq, qMul_eq, qMul_eq, qMul_eq]
  ring

theorem foldl_qMax_congr {α : Type} :
    ∀ (L : List α) (f g : α → ℚ) (a : ℚ), (∀ e ∈ L, f e = g e) →
      L.foldl (fun h e => qMax h (f e)) a = L.foldl (fun h e => qMax h (g e)) a := by
  intro L
  induction L with
  | nil => intro f g a _; rfl
  | cons e L ih =>
    intro f g a h
    simp only [List.foldl]
    rw [h e (List.mem_cons_self _ _),
      ih f g _ (fun e' he' => h e' (List.mem_cons_of_mem _ he'))]

theorem idFold_snd_eq_best (text : Str) :
    (DOCUMENT_SIGNATURES.foldl (idStep text) ("Unknown Document", 0)).2 =
      bestSigScore text := by
  rw [idFold_snd]
  unfold bestSigScore
  exact foldl_qMax_congr _ _ _ _ (sigTotal_eq_spec text)

/-! Confidence bounds: every score the engine computes lies in `[0, 1]`. -/

theorem qFrac_nonneg (a b : ℕ) : 0 ≤ qFrac a b := by
  rw [qFrac_eq]; positivity

theorem qFrac_le_one {a b : ℕ} (h : a ≤ b) : qFrac a b ≤ 1 := by
  rw [qFrac_eq]
  rcases Nat.eq_zero_or_pos b with hb | hb
  · subst hb
    have : a = 0 := Nat.le_zero.1 h
    simp [this]
  · rw [div_le_one (by exact_mod_cast hb)]
    exact_mod_cast h

theorem countKeywordMatches_nonneg (text : Str) (ty : String) :
    0 ≤ countKeywordMatches text ty := by
  unfold countKeywordMatches
  rcases lookupSignature ty with _ | sig
  · exact le_refl 0
  · exact qFrac_nonneg _ _

theorem countKeywordMatches_le_one (text : Str) (ty : String) :
    countKeywordMatches text ty ≤ 1 := by
  unfold countKeywordMatches
  rcases lookupSignature ty with _ | sig
  · exact zero_le_one
  · exact qFrac_le_one (List.length_filter_le _ _)

theorem foldl_step_bounds {α : Type} (P : α → Bool) (step : ℚ) (hstep : 0 ≤ step) :
    ∀ (L : List α) (a : ℚ),
      a ≤ L.foldl (fun sc x => if P x then qAdd sc step else sc) a ∧
      L.foldl (fun sc x => if P x then qAdd sc step else sc) a ≤ a + step * L.length := by
  intro L
  induction L with
  | nil => intro a; simp
  | cons x t ih =>
    intro a
    simp only [List.foldl, List.length_cons]
    by_cases hP : P x
    · rw [if_pos hP, qAdd_eq]
      refine ⟨le_trans (le_add_of_nonneg_right hstep) (ih (a + step)).1, ?_⟩
      refine le_trans (ih (a + step)).2 (le_of_eq ?_)
      push_cast
      ring
    · rw [if_neg hP]
      refine ⟨(ih a).1, le_trans (ih a).2 ?_⟩
      have : (t.length : ℚ) ≤ ((t.length + 1 : ℕ) : ℚ) := by push_cast; linarith
      nlinarith

theorem analyzeLCStructure_bounds (lines : List Str) :
    0 ≤ analyzeLCStructure lines ∧ analyzeLCStructure lines ≤ 1 := by
  unfold analyzeLCStructure
  have h := foldl_step_bounds (structurePresence lines) (mkRat 2 10) (by decide)
    ["lc number", "beneficiary", "applicant", "amount", "expiry"] 0
  refine ⟨h.1, le_trans h.2 (le_of_eq ?_)⟩
  rw [Rat.mkRat_eq_div]
  norm_num

theorem analyzeInvoiceStructure_bounds (lines : List Str) :
    0 ≤ analyzeInvoiceStructure lines ∧ analyzeInvoiceStructure lines ≤ 1 := by
  unfold analyzeInvoiceStructure
  have h := foldl_step_bounds (structurePresence lines) (mkRat 25 100) (by decide)
    ["invoice number", "date", "total", "description"] 0
  refine ⟨h.1, le_trans h.2 (le_of_eq ?_)⟩
  rw [Rat.mkRat_eq_div]
  norm_num

theorem analyzeBLStructure_bounds (lines : List Str) :
    0 ≤ analyzeBLStructure lines ∧ analyzeBLStructure lines ≤ 1 := by
  unfold analyzeBLStructure
  have h := foldl_step_bounds (structurePresence lines) (mkRat 25 100) (by decide)
    ["vessel", "port", "consignee", "shipper"] 0
  refine ⟨h.1, le_trans h.2 (le_of_eq ?_)⟩
  rw [Rat.mkRat_eq_div]
  norm_num

theorem analyzeDocumentStructure_bounds (text : Str) (ty : String) :
    0 ≤ analyzeDocumentStructure text ty ∧ analyzeDocumentStructure text ty ≤ 1 := by
  unfold analyzeDocumentStructure
  split
  · exact analyzeLCStructure_bounds _
  · exact analyzeInvoiceStructure_bounds _
  · exact analyzeBLStructure_bounds _
  · exact ⟨by decide, by decide⟩

theorem refineSections_confidence_bounds {sections : List SectionRec} {fullText : Str}
    {s : SectionRec} (hs : s ∈ refineSections sections fullText) :
    0 ≤ s.confidence ∧ s.confidence ≤ 1 := by
  unfold refineSections at hs
  rcases List.mem_filter.1 hs with ⟨hmem, _⟩
  rcases List.mem_map.1 hmem with ⟨s0, _, rfl⟩
  simp only
  have hkw0 := countKeywordMatches_nonneg s0.content s0.type
  have hst := analyzeDocumentStructure_bounds s0.content s0.type
  set kw := countKeywordMatches s0.content s0.type with hkwdef
  set st := analyzeDocumentStructure s0.content s0.type with hstdef
  simp only [qMin_eq, qAdd_eq, qMul_eq]
  have hsum : (0 : ℚ) ≤ kw * mkRat 4 10 + st * mkRat 6 10 :=
    add_nonneg (mul_nonneg hkw0 (by decide)) (mul_nonneg hst.1 (by decide))
  have hmin0 : (0 : ℚ) ≤ min (mkRat 95 100) (kw * mkRat 4 10 + st * mkRat 6 10) :=
    le_min (by decide) hsum
  have hmin1 : min (mkRat 95 100) (kw * mkRat 4 10 + st * mkRat 6 10) ≤ 1 :=
    le_trans (min_le_left _ _) (by decide)
  by_cases hlen : s0.content.length < 100
  · rw [if_pos hlen]
    constructor
    · exact mul_nonneg hmin0 (by decide)
    · exact mul_le_one₀ hmin1 (by decide) (by decide)
  · rw [if_neg hlen]
    exact ⟨hmin0, hmin1⟩

theorem fieldsOfOpt_confidence {n : String} {c : ℚ} {tr : Bool} {m : Option Str}
    {f : ExtractedField} (h : f ∈ fieldsOfOpt n c tr m) : f.confidence = c := by
  unfold fieldsOfOpt at h
  cases m with
  | none => simp at h
  | some v =>
    simp only [List.mem_singleton] at h
    subst h; rfl

theorem extractFields_confidence_bounds {content : Str} {ty : String}
    {f : ExtractedField} (hf : f ∈ extractFieldsFromSection content ty) :
    0 ≤ f.confidence ∧ f.confidence ≤ 1 := by
  unfold extractFieldsFromSection at hf
  split at hf
  · unfold extractLCFields at hf
    rcases List.mem_append.1 hf with h | h
    rcases List.mem_append.1 h with h | h
    rcases List.mem_append.1 h with h | h
    all_goals rw [fieldsOfOpt_confidence h]; exact ⟨by decide, by decide⟩
  · unfold extractInvoiceFields at hf
    rcases List.mem_append.1 hf with h | h
    all_goals rw [fieldsOfOpt_confidence h]; exact ⟨by decide, by decide⟩
  · unfold extractBLFields at hf
    rcases List.mem_append.1 hf with h | h
    all_goals rw [fieldsOfOpt_confidence h]; exact ⟨by decide, by decide⟩
  · unfold extractPackingListFields at hf
    rw [fieldsOfOpt_confidence hf]; exact ⟨by decide, by decide⟩
  · unfold extractOriginFields at hf
    rw [fieldsOfOpt_confidence hf]; exact ⟨by decide, by decide⟩
  · unfold extractInsuranceFields at hf
    rw [fieldsOfOpt_confidence hf]; exact ⟨by decide, by decide⟩
  · unfold extractGenericFields at hf
    have hf2 := List.mem_of_mem_take hf
    rcases List.mem_filterMap.1 hf2 with ⟨line, _, heq⟩
    rcases hkv : genericKVMatch line with _ | kv
    · rw [hkv] at heq; simp at heq
    · rw [hkv] at heq
      simp only at heq
      split at heq
      · have hc : f.confidence = mkRat 6 10 := by rw [← Option.some.inj heq]
        rw [hc]
        exact ⟨by decide, by decide⟩
      · simp at heq

theorem snd_mem_of_mem_enumFrom {α : Type} :
    ∀ (l : List α) (n : ℕ) (p : ℕ × α), p ∈ l.enumFrom n → p.2 ∈ l := by
  intro l
  induction l with
  | nil => intro n p h; simp [List.enumFrom] at h
  | cons x t ih =>
    intro n p h
    simp only [List.enumFrom, List.mem_cons] at h
    rcases h with h | h
    · subst h; exact List.mem_cons_self _ _
    · exact List.mem_cons_of_mem _ (ih (n + 1) p h)

theorem sectionsOf_confidence_bounds {n : Str} {s : SectionRec}
    (hs : s ∈ sectionsOf n) : 0 ≤ s.confidence ∧ s.confidence ≤ 1 := by
  simp only [sectionsOf] at hs
  split at hs
  · simp only [List.mem_singleton] at hs
    subst hs
    refine ⟨?_, ?_⟩
    · show (0 : ℚ) ≤ mkRat 7 10
      decide
    · show mkRat 7 10 ≤ (1 : ℚ)
      decide
  · exact refineSections_confidence_bounds hs

/-! ## Claims -/

set_option maxRecDepth 10000

/-- Claim C4: for every input string the pipeline returns exactly one
split document — normalization collapses every whitespace run (line
breaks included) to single spaces before the split on newlines, so the
boundary detector scans at most one line and emits at most one section,
and the whole-text fallback guarantees at least one. -/
theorem c4_pipeline_always_single_segment (documentId extractedText now : String) :
    (linesOf (normOf extractedText)).length ≤ 1 ∧
    (findDocumentSections (linesOf (normOf extractedText)) (normOf extractedText)).length ≤ 1 ∧
    (splitDocumentByFormType documentId extractedText now).splitDocuments.length = 1 ∧
    (splitDocumentByFormType documentId extractedText now).splitCount = 1 := by
  have h1 := linesOf_normOf_length_le extractedText
  have h2 : (findDocumentSections (linesOf (normOf extractedText))
      (normOf extractedText)).length ≤ 1 := by
    unfold findDocumentSections
    exact le_trans (refineSections_length_le _ _) (findRawSections_length_le_one h1)
  have h3 : (splitDocumentByFormType documentId extractedText now).splitDocuments.length = 1 := by
    rw [splitDocuments_length]
    exact sectionsOf_length_one h2
  have h4 : (splitDocumentByFormType documentId extractedText now).splitCount =
      (splitDocumentByFormType documentId extractedText now).splitDocuments.length := by
    simp [splitDocumentByFormType]
  exact ⟨h1, h2, h3, h4.trans h3⟩

/-- Claim C2, counterexample: on the empty input the pipeline returns one
(fallback) segment, not an empty segment list. -/
theorem c2_empty_input_counterexample :
    (splitDocumentByFormType "doc1" "" "t0").splitDocuments.length = 1 := by decide

/-- Claim C2 (amended): for every empty or whitespace-only input the
pipeline returns exactly one fallback segment, typed
`"Unknown Document"` with empty content and confidence `0.7`, and no
error. -/
theorem c2_amended_whitespace_fallback (docId s now : String)
    (h : ∀ c ∈ s.data, isWsChar c = true) :
    (splitDocumentByFormType docId s now).splitDocuments.map
      (fun d => (d.documentType, d.content, d.confidence)) =
      [("Unknown Document", ([] : Str), mkRat 7 10)] := by
  have hn := normOf_of_allWs s h
  have hsec : findDocumentSections (linesOf (normOf s)) (normOf s) = [] := by
    rw [hn]; decide
  have hfb := fallback_output docId s now hsec
  rw [hn] at hfb
  have hid : identifyDocumentType ([] : Str) = "Unknown Document" := by decide
  rw [hid] at hfb
  exact hfb

/-- Claim C2, witness for the amended statement at a whitespace-only
input. -/
theorem c2_amended_whitespace_fallback_witness :
    (splitDocumentByFormType "doc1" " " "t0").splitDocuments.map
      (fun d => (d.documentType, d.content, d.confidence)) =
      [("Unknown Document", ([] : Str), mkRat 7 10)] :=
  c2_amended_whitespace_fallback "doc1" " " "t0" (by decide)

/-- Claim C3, counterexample: on `"COMMERCIAL INVOICE"` the boundary
detector produces one candidate section, refinement drops every
candidate, and the pipeline still returns one (fallback) segment rather
than an empty list. -/
theorem c3_below_threshold_counterexample :
    (findRawSections (linesOf (normOf "COMMERCIAL INVOICE"))).length = 1 ∧
    findDocumentSections (linesOf (normOf "COMMERCIAL INVOICE"))
      (normOf "COMMERCIAL INVOICE") = [] ∧
    (splitDocumentByFormType "doc1" "COMMERCIAL INVOICE" "t0").splitDocuments.length = 1 :=
  ⟨by decide, by decide, by decide⟩

/-- Claim C3 (amended): when the boundary detector produced candidates
but refinement drops all of them, the pipeline substitutes the single
whole-text fallback segment (typed by whole-text classification,
confidence `0.7`) instead of returning an empty list. -/
theorem c3_amended_fallback_substituted (docId text now : String)
    (hraw : findRawSections (linesOf (normOf text)) ≠ [])
    (href : findDocumentSections (linesOf (normOf text)) (normOf text) = []) :
    (splitDocumentByFormType docId text now).splitDocuments.map
      (fun d => (d.documentType, d.content, d.confidence)) =
      [(identifyDocumentType (normOf text), normOf text, mkRat 7 10)] :=
  fallback_output docId text now href

/-- Claim C3, witness for the amended statement. -/
theorem c3_amended_fallback_substituted_witness :
    (splitDocumentByFormType "doc1" "COMMERCIAL INVOICE" "t0").splitDocuments.map
      (fun d => (d.documentType, d.content, d.confidence)) =
      [(identifyDocumentType (normOf "COMMERCIAL INVOICE"),
        normOf "COMMERCIAL INVOICE", mkRat 7 10)] :=
  c3_amended_fallback_substituted "doc1" "COMMERCIAL INVOICE" "t0" (by decide) (by decide)

/-- Claim C6: the refiner computes
`min(0.95, keywordDensity * 0.4 + structuralScore * 0.6)`, halves it for
contents shorter than 100 characters, keeps exactly the segments with
confidence strictly above `0.3`, and preserves the original relative
order (the output is a sublist of the rescored input). -/
theorem c6_refiner_confidence_formula (sections : List SectionRec) (fullText : Str) :
    refineSections sections fullText =
      (sections.map specRescore).filter (fun s => s.confidence > mkRat 3 10) ∧
    (refineSections sections fullText).Sublist (sections.map specRescore) := by
  have heq : refineSections sections fullText =
      (sections.map specRescore).filter (fun s => s.confidence > mkRat 3 10) := rfl
  exact ⟨heq, heq ▸ List.filter_sublist _⟩

/-- Claim C7: whole-text classification scores each signature by
`0.6 × keyword ratio + 0.4 × start-pattern ratio`, returns a registered
type achieving the highest score when that score exceeds `0.3`, returns
`"Unknown Document"` otherwise, and the fallback segment synthesized from
it spans the whole (normalized) input with confidence exactly `0.7`. -/
theorem c7_whole_text_classification (docId text now : String) (t : Str) :
    (bestSigScore t ≤ mkRat 3 10 → identifyDocumentType t = "Unknown Document") ∧
    (mkRat 3 10 < bestSigScore t →
      ∃ e ∈ DOCUMENT_SIGNATURES, identifyDocumentType t = e.1 ∧
        specSigScore t e = bestSigScore t) ∧
    (findDocumentSections (linesOf (normOf text)) (normOf text) = [] →
      (splitDocumentByFormType docId text now).splitDocuments.map
        (fun d => (d.documentType, d.content, d.confidence)) =
        [(identifyDocumentType (normOf text), normOf text, mkRat 7 10)]) := by
  refine ⟨?_, ?_, fallback_output docId text now⟩
  · intro h
    have hr2 := idFold_snd_eq_best t
    simp only [identifyDocumentType]
    rw [if_neg]
    rw [hr2]
    exact not_lt.2 h
  · intro h
    have hr2 := idFold_snd_eq_best t
    rcases idFold_fst t DOCUMENT_SIGNATURES ("Unknown Document", 0) with hinit | ⟨e, he, h1, h2⟩
    · exfalso
      rw [hinit] at hr2
      rw [← hr2] at h
      exact absurd h (by decide)
    · refine ⟨e, he, ?_, ?_⟩
      · simp only [identifyDocumentType]
        rw [if_pos, h1]
        rw [hr2]
        exact h
      · rw [← sigTotal_eq_spec t e he, ← h2, hr2]

/-- Claim C7, witness: on the empty text the best score is at most `0.3`,
classification returns `"Unknown Document"`, and the pipeline emits the
single fallback segment. -/
theorem c7_whole_text_classification_witness :
    identifyDocumentType ([] : Str) = "Unknown Document" ∧
    (splitDocumentByFormType "doc1" "" "t0").splitDocuments.map
      (fun d => (d.documentType, d.content, d.confidence)) =
      [(identifyDocumentType (normOf ""), normOf "", mkRat 7 10)] := by
  obtain ⟨h1, _, h3⟩ := c7_whole_text_classification "doc1" "" "t0" []
  exact ⟨h1 (by decide), h3 (by decide)⟩

/-- Claim C9: every split document the pipeline outputs has a confidence
in `[0, 1]`, and every extracted field of every output document has a
confidence in `[0, 1]`. -/
theorem c9_confidences_in_unit_interval (docId text now : String) (d : SplitDoc)
    (hd : d ∈ (splitDocumentByFormType docId text now).splitDocuments) :
    (0 ≤ d.confidence ∧ d.confidence ≤ 1) ∧
      ∀ f ∈ d.extractedFields, 0 ≤ f.confidence ∧ f.confidence ≤ 1 := by
  simp only [splitDocumentByFormType] at hd
  rcases List.mem_map.1 hd with ⟨p, hp, rfl⟩
  have hsec : p.2 ∈ sectionsOf (normOf text) := snd_mem_of_mem_enumFrom _ 0 p hp
  constructor
  · exact sectionsOf_confidence_bounds hsec
  · intro f hf
    exact extractFields_confidence_bounds hf

/-- Claim C9, witness at the empty input and its fallback document. -/
theorem c9_confidences_witness :
    0 ≤ sampleSplitDoc.confidence ∧ sampleSplitDoc.confidence ≤ 1 :=
  (c9_confidences_in_unit_interval "doc1" "" "t0" sampleSplitDoc (by decide)).1

/-- Claim C10, counterexample: two runs on the identical input text and
registry but at different wall-clock times return different results —
the `processingTime` field of the result records the current time. -/
theorem c10_wall_clock_counterexample :
    splitDocumentByFormType "doc1" "x" "2024-01-01T00:00:00Z" ≠
      splitDocumentByFormType "doc1" "x" "2024-01-01T00:00:01Z" := by
  intro h
  exact absurd (congrArg SplitResult.processingTime h) (by decide)

/-- Claim C10 (amended): the split documents (segments and their fields)
are fully determined by the input text, document id and registry — two
runs agree on `splitDocuments` and `splitCount` — but the field
`processingTime` of the result is the wall-clock timestamp of the run. -/
theorem c10_amended_deterministic_modulo_timestamp (docId text t1 t2 : String) :
    (splitDocumentByFormType docId text t1).splitDocuments =
      (splitDocumentByFormType docId text t2).splitDocuments ∧
    (splitDocumentByFormType docId text t1).splitCount =
      (splitDocumentByFormType docId text t2).splitCount ∧
    (splitDocumentByFormType docId text t1).processingTime = t1 :=
  ⟨rfl, rfl, rfl⟩

/-- Claim C5, counterexample: two consecutive lines both matching the
Bill-of-Lading start pattern `VESSEL` make the boundary detector close
the open segment and reopen a new one of the same type — the raw output
is two sections, not one segment with the line appended. -/
theorem c5_same_type_reopen_counterexample :
    (findRawSections ["VESSEL A".data, "VESSEL B".data]).map
      (fun s => (s.type, s.startIndex, s.endIndex, s.content)) =
      [("Bill of Lading", 0, (0 : ℤ), "VESSEL A".data),
       ("Bill of Lading", 1, (1 : ℤ), "VESSEL B".data)] := by decide

/-- Claim C5 (amended): a start-pattern match — including one of the same
type as the currently open segment — closes the open segment (end index
= current line − 1) and opens a fresh segment at the current line with a
recomputed provisional confidence; the source performs no same-type
check. -/
theorem c5_amended_same_type_closes_and_reopens
    (lines : List Str) (acc : List SectionRec) (c : SectionRec) (i : ℕ) (line : Str)
    (e : String × Signature)
    (hfind : findStartMatch line = some e)
    (htype : e.1 = c.type)
    (hsig : lookupSignature e.1 = some e.2)
    (hend : e.2.endPatterns.any (fun p => reTest p line) = false) :
    processLine lines (acc, some c) i line =
      (acc ++ [{ c with
                 endIndex := (i : ℤ) - 1
                 content := joinNl ((lines.drop c.startIndex).take (i - c.startIndex)) }],
       some { type := e.1
              startIndex := i
              endIndex := (lines.length : ℤ) - 1
              content := []
              confidence := calculateDocumentConfidence line e.1 }) := by
  simp only [processLine, hfind, hsig, hend]
  rfl

/-- Claim C5, witness: the amended behaviour at the concrete repeated
`VESSEL` header. -/
theorem c5_amended_witness :
    processLine ["VESSEL A".data, "VESSEL B".data]
        ([], some ⟨"Bill of Lading", 0, 1, [], mkRat 7 10⟩) 1 "VESSEL B".data =
      ([⟨"Bill of Lading", 0, 0, "VESSEL A".data, mkRat 7 10⟩],
       some ⟨"Bill of Lading", 1, 1, [], mkRat 7 10⟩) :=
  (c5_amended_same_type_closes_and_reopens
    ["VESSEL A".data, "VESSEL B".data] []
    ⟨"Bill of Lading", 0, 1, [], mkRat 7 10⟩
    1 "VESSEL B".data ("Bill of Lading", blSig) rfl rfl rfl rfl).trans (by decide)

/-- Claim C1: on a full Letter-of-Credit block followed by a
Bill-of-Lading block (each with its own start markers on separate
lines), the pipeline returns a single segment typed
`"Letter of Credit"` — not two segments — because the whitespace
normalization erases the line structure before boundary detection. -/
theorem c1_lc_bl_concatenation_single_segment :
    (splitDocumentByFormType "doc1"
        "LETTER OF CREDIT\nLC NUMBER: LC-1\nBENEFICIARY: ABC\nAPPLICANT: XYZ\nAMOUNT: USD 100\nEXPIRY: 2024\nBILL OF LADING\nVESSEL: MV STAR"
        "t0").splitDocuments.map (fun d => d.documentType) =
      ["Letter of Credit"] := by decide

/-- Claim C8: on the Scenario A input the pipeline yields one
`"Commercial Invoice"` segment whose field list is exactly an
`Invoice Number` field capturing `"INVOICE"` — no `Total Amount` field is
produced, because the extraction regex cannot skip the word `AMOUNT`
after `TOTAL`. -/
theorem c8_scenario_a_missing_total_amount :
    (splitDocumentByFormType "doc1"
        "COMMERCIAL INVOICE\nINVOICE NUMBER: INV-123\nTOTAL AMOUNT: USD 500.00"
        "t0").splitDocuments.map (fun d => (d.documentType, d.extractedFields)) =
      [("Commercial Invoice",
        [{ fieldName := "Invoice Number", fieldValue := "INVOICE",
           confidence := mkRat 9 10 }])] := by decide

end TFDF
